import Mathlib

/-
Verification development for the tinker-box service scaffold.

The Go sources are shallowly embedded as pure Lean functions:
- internal/bootstrap (Start in the unnamed bootstrap file, Shutdown in
  shutdown.go) over an environment that records, per subsystem, whether
  its Init and Close calls succeed;
- internal/global/global.go (SetConfig / GetConfig guarded by sync.Once)
  as an explicit state machine;
- the kafka messaging client (PublishMessage / ConsumeMessages) over an
  environment describing the producer, the delivery event, the assignment
  outcome and a finite schedule of poll results.

Go errors built by fmt.Errorf with a %w chain are embedded as a list of
strings, outermost wrap first, root cause last.
-/

namespace TinkerBox

/-- GoResult embeds a Go function result of type error: nil on success,
otherwise a wrapped error chain (outermost message first, root cause last). -/
inductive GoResult where
  | ok
  | fail (err : List String)
deriving DecidableEq, Repr

/-- Subsystem enumerates the five backing services touched by
bootstrap.Start and bootstrap.Shutdown, in their fixed declaration order. -/
inductive Subsystem where
  | mysql
  | postgres
  | redis
  | elasticsearch
  | kafka
deriving DecidableEq, Repr

/-- Ev is one observable call made by the orchestrator on a subsystem. -/
inductive Ev where
  | initCall (s : Subsystem)
  | closeCall (s : Subsystem)
deriving DecidableEq, Repr

/-- initCalls extracts, in order, the subsystems whose Init was invoked. -/
def initCalls : List Ev → List Subsystem
  | [] => []
  | Ev.initCall s :: r => s :: initCalls r
  | Ev.closeCall _ :: r => initCalls r

/-- closeCalls extracts, in order, the subsystems whose Close was invoked. -/
def closeCalls : List Ev → List Subsystem
  | [] => []
  | Ev.closeCall s :: r => s :: closeCalls r
  | Ev.initCall _ :: r => closeCalls r

/-- Cfg carries the per-subsystem enabled flags read by bootstrap.Start
from the global configuration (cfg.Database.MySQL.Enabled and so on). -/
structure Cfg where
  mysqlEnabled : Bool
  postgresqlEnabled : Bool
  redisEnabled : Bool
  elasticsearchEnabled : Bool
  kafkaEnabled : Bool
deriving DecidableEq, Repr

/-- Cfg.enabledOf reads the enabled flag of one subsystem. -/
def Cfg.enabledOf (cfg : Cfg) : Subsystem → Bool
  | Subsystem.mysql => cfg.mysqlEnabled
  | Subsystem.postgres => cfg.postgresqlEnabled
  | Subsystem.redis => cfg.redisEnabled
  | Subsystem.elasticsearch => cfg.elasticsearchEnabled
  | Subsystem.kafka => cfg.kafkaEnabled

/-- Env fixes, for one run, the outcome of each subsystem package call:
initErr s = some c means s.Init fails with root cause c, none means it
succeeds; closeErr likewise for s.Close. -/
structure Env where
  initErr : Subsystem → Option String
  closeErr : Subsystem → Option String

/-- initFailMsg is the message each per-subsystem init failure is wrapped
with inside initDatabases, initCache, initElasticsearch and initKafka. -/
def initFailMsg : Subsystem → String
  | Subsystem.mysql => "failed to initialize MySQL"
  | Subsystem.postgres => "failed to initialize PostgreSQL"
  | Subsystem.redis => "failed to initialize Redis"
  | Subsystem.elasticsearch => "failed to initialize Elasticsearch"
  | Subsystem.kafka => "failed to initialize Kafka"

/-- StartOut is the observable outcome of bootstrap.Start: its returned
error, the trace of orchestrator calls, and the subsystems whose Init
returned success, in order of successful initialization. -/
structure StartOut where
  res : GoResult
  trace : List Ev
  started : List Subsystem
deriving DecidableEq, Repr

/-- initStep embeds the enabled-guarded Init call of one subsystem body,
including the per-subsystem fmt.Errorf wrap of the group function. -/
def initStep (env : Env) (enabled : Bool) (s : Subsystem) : StartOut :=
  if enabled then
    match env.initErr s with
    | some c => ⟨GoResult.fail [initFailMsg s, c], [Ev.initCall s], []⟩
    | none => ⟨GoResult.ok, [Ev.initCall s], [s]⟩
  else ⟨GoResult.ok, [], []⟩

/-- StartOut.andThen sequences two startup phases the way the Go code
does: the second runs only if the first returned a nil error. -/
def StartOut.andThen (a : StartOut) (b : Unit → StartOut) : StartOut :=
  match a.res with
  | GoResult.fail e => ⟨GoResult.fail e, a.trace, a.started⟩
  | GoResult.ok =>
    let o := b ()
    ⟨o.res, a.trace ++ o.trace, a.started ++ o.started⟩

/-- StartOut.wrap adds one fmt.Errorf context message around a failure. -/
def StartOut.wrap (msg : String) (a : StartOut) : StartOut :=
  match a.res with
  | GoResult.fail e => ⟨GoResult.fail (msg :: e), a.trace, a.started⟩
  | GoResult.ok => a

/-- initDatabases embeds the Go initDatabases: MySQL then PostgreSQL,
each guarded by its enabled flag, stopping at the first failure. -/
def initDatabases (env : Env) (cfg : Cfg) : StartOut :=
  StartOut.andThen (initStep env cfg.mysqlEnabled Subsystem.mysql) fun _ =>
    initStep env cfg.postgresqlEnabled Subsystem.postgres

/-- initCache embeds the Go initCache: Redis guarded by its flag. -/
def initCache (env : Env) (cfg : Cfg) : StartOut :=
  initStep env cfg.redisEnabled Subsystem.redis

/-- initElasticsearch embeds the Go initElasticsearch (the per-subsystem
wrap message is already part of initStep). -/
def initElasticsearch (env : Env) (cfg : Cfg) : StartOut :=
  initStep env cfg.elasticsearchEnabled Subsystem.elasticsearch

/-- initKafka embeds the Go initKafka. -/
def initKafka (env : Env) (cfg : Cfg) : StartOut :=
  initStep env cfg.kafkaEnabled Subsystem.kafka

/-- Start embeds bootstrap.Start: databases, cache, Elasticsearch, Kafka,
in that fixed order, each group wrapped with its own context message,
stopping at the first failure; Start never invokes any Close. -/
def Start (env : Env) (cfg : Cfg) : StartOut :=
  StartOut.andThen (StartOut.wrap "failed to initialize databases" (initDatabases env cfg)) fun _ =>
  StartOut.andThen (StartOut.wrap "failed to initialize cache" (initCache env cfg)) fun _ =>
  StartOut.andThen (StartOut.wrap "failed to initialize Elasticsearch" (initElasticsearch env cfg)) fun _ =>
  StartOut.wrap "failed to initialize Kafka" (initKafka env cfg)

/-- predecessors lists the subsystems declared strictly before a given
subsystem in the fixed declaration order of Start. -/
def predecessors : Subsystem → List Subsystem
  | Subsystem.mysql => []
  | Subsystem.postgres => [Subsystem.mysql]
  | Subsystem.redis => [Subsystem.mysql, Subsystem.postgres]
  | Subsystem.elasticsearch => [Subsystem.mysql, Subsystem.postgres, Subsystem.redis]
  | Subsystem.kafka =>
      [Subsystem.mysql, Subsystem.postgres, Subsystem.redis, Subsystem.elasticsearch]

/-- startFailChain is the exact wrapped error chain Start returns when
subsystem s is the first enabled subsystem whose Init fails with cause c. -/
def startFailChain : Subsystem → String → List String
  | Subsystem.mysql, c => ["failed to initialize databases", "failed to initialize MySQL", c]
  | Subsystem.postgres, c => ["failed to initialize databases", "failed to initialize PostgreSQL", c]
  | Subsystem.redis, c => ["failed to initialize cache", "failed to initialize Redis", c]
  | Subsystem.elasticsearch, c =>
      ["failed to initialize Elasticsearch", "failed to initialize Elasticsearch", c]
  | Subsystem.kafka, c => ["failed to initialize Kafka", "failed to initialize Kafka", c]

/-- Handles records which package-level client handles are set; the
bootstrap Shutdown neither reads nor clears them, and each package Close
is invoked through the package function regardless. -/
def Handles : Type := Subsystem → Bool

/-- closeFailLog is the message logged by bootstrap.Shutdown when one
subsystem Close returns an error. -/
def closeFailLog : Subsystem → String
  | Subsystem.mysql => "Error closing MySQL connection"
  | Subsystem.postgres => "Error closing PostgreSQL connection"
  | Subsystem.redis => "Error closing Redis connection"
  | Subsystem.elasticsearch => "Error closing Elasticsearch connection"
  | Subsystem.kafka => "Error closing Kafka connection"

/-- ShutOut is the observable outcome of bootstrap.Shutdown: its returned
error, the trace of Close invocations, and its log lines in order. -/
structure ShutOut where
  res : GoResult
  trace : List Ev
  logs : List String
deriving DecidableEq, Repr

/-- closeStep embeds one guarded Close call of Shutdown: the Close is
always invoked and a failure only produces a log line. -/
def closeStep (env : Env) (s : Subsystem) : List Ev × List String :=
  ([Ev.closeCall s],
   match env.closeErr s with
   | some _ => [closeFailLog s]
   | none => [])

/-- Shutdown embeds bootstrap.Shutdown: it invokes Close on MySQL,
PostgreSQL, Redis, Elasticsearch and Kafka in that order, unconditionally,
logging each failure, leaves the handle state untouched, and returns nil. -/
def Shutdown (env : Env) (h : Handles) : ShutOut × Handles :=
  let m := closeStep env Subsystem.mysql
  let p := closeStep env Subsystem.postgres
  let r := closeStep env Subsystem.redis
  let e := closeStep env Subsystem.elasticsearch
  let k := closeStep env Subsystem.kafka
  (⟨GoResult.ok,
    m.1 ++ p.1 ++ r.1 ++ e.1 ++ k.1,
    ["Starting graceful shutdown..."] ++ m.2 ++ p.2 ++ r.2 ++ e.2 ++ k.2
      ++ ["Graceful shutdown completed"]⟩,
   h)

/-- GConfigVal stands in for the contents of a config.Config value; the
set-once semantics of the global package does not depend on its shape. -/
abbrev GConfigVal : Type := Nat

/-- GlobalState embeds the package-level state of internal/global:
whether the sync.Once already fired, and the stored appConfig pointer
(none embeds a nil pointer). -/
structure GlobalState where
  onceDone : Bool
  appConfig : Option GConfigVal
deriving DecidableEq, Repr

/-- initialGlobalState is the package state before any SetConfig call. -/
def initialGlobalState : GlobalState := ⟨false, none⟩

/-- SetConfig embeds global.SetConfig: the body runs under configOnce.Do,
so it stores its argument only on the first call. -/
def SetConfig (cfg : Option GConfigVal) (s : GlobalState) : GlobalState :=
  if s.onceDone then s else ⟨true, cfg⟩

/-- GetConfig embeds global.GetConfig: it returns the stored pointer. -/
def GetConfig (s : GlobalState) : Option GConfigVal := s.appConfig

/-- runSetConfigs folds a sequence of SetConfig calls over a state. -/
def runSetConfigs (calls : List (Option GConfigVal)) (s : GlobalState) : GlobalState :=
  calls.foldl (fun st c => SetConfig c st) s

/-- DeliveryEvent is the broker delivery report for one produced message:
the assigned partition and offset, and the delivery error if any. -/
structure DeliveryEvent where
  partition : Int
  offset : Int
  deliveryErr : Option String
deriving DecidableEq, Repr

/-- ProducerEnv fixes one PublishMessage run: whether the package
producer handle is set, whether Produce fails synchronously, and the
delivery event that the dedicated channel would carry. -/
structure ProducerEnv where
  producerInit : Bool
  produceErr : Option String
  delivery : DeliveryEvent
deriving DecidableEq, Repr

/-- PubCtx embeds the select between the delivery channel and ctx.Done:
cancelledBeforeDelivery is true when the cancellation branch fires before
the delivery event is received. -/
structure PubCtx where
  cancelledBeforeDelivery : Bool
deriving DecidableEq, Repr

/-- PubOut is the observable outcome of PublishMessage: the returned
error, whether producer.Produce was invoked, and the log lines. -/
structure PubOut where
  res : GoResult
  produceCalled : Bool
  logs : List String
deriving DecidableEq, Repr

/-- sentLog is the line PublishMessage logs on confirmed delivery,
echoing the topic and the reported partition and offset. -/
def sentLog (topic : String) (p : Int) (o : Int) : String :=
  "Message sent to topic " ++ topic ++ ", partition " ++ toString p ++ ", offset " ++ toString o

/-- PublishMessage embeds kafka.PublishMessage: after the nil-producer
check it always invokes producer.Produce with partition PartitionAny,
then waits on the delivery channel or on cancellation; the reported
partition and offset are only logged, the function returns just an error
(nil on success). -/
def PublishMessage (env : ProducerEnv) (ctx : PubCtx) (topic : String)
    (_key : String) (_value : List Nat) : PubOut :=
  if env.producerInit = false then
    ⟨GoResult.fail ["Kafka producer not initialized"], false, []⟩
  else
    match env.produceErr with
    | some c =>
        ⟨GoResult.fail ["failed to produce message to topic " ++ topic, c], true, []⟩
    | none =>
        if ctx.cancelledBeforeDelivery then
          ⟨GoResult.fail ["context canceled"], true, []⟩
        else
          match env.delivery.deliveryErr with
          | some c => ⟨GoResult.fail ["delivery failed", c], true, []⟩
          | none =>
              ⟨GoResult.ok, true,
               [sentLog topic env.delivery.partition env.delivery.offset]⟩

/-- KMessage is one broker message with its topic, partition, offset,
key and value. -/
structure KMessage where
  topic : String
  partition : Int
  offset : Int
  key : String
  value : List Nat
deriving DecidableEq, Repr

/-- KEvent is one non-nil result of consumer.Poll. -/
inductive KEvent where
  | message (m : KMessage)
  | brokerError (e : String)
  | otherEvent
deriving DecidableEq, Repr

/-- CancelAt embeds a context as the poll-loop iteration index from which
ctx.Done is closed; none embeds a context that is never cancelled. -/
abbrev CancelAt : Type := Option Nat

/-- ctxCancelled tells whether the context is observed cancelled at the
check that opens loop iteration i. -/
def ctxCancelled (cancelAt : CancelAt) (i : Nat) : Bool :=
  match cancelAt with
  | none => false
  | some n => decide (n ≤ i)

/-- LoopExit distinguishes a loop that returned due to cancellation from
one still polling when the observed schedule ends. -/
inductive LoopExit where
  | cancelled
  | running
deriving DecidableEq, Repr

/-- LoopOut is the observable outcome of the polling loop over a finite
schedule: how it exited, the messages dispatched to the handler in order,
the log lines, and the number of Poll calls made. -/
structure LoopOut where
  exit : LoopExit
  handled : List KMessage
  logs : List String
  polls : Nat
deriving DecidableEq, Repr

/-- handleEvent embeds the switch on one Poll result: a message event is
dispatched to the handler and a handler error is only logged; a broker
error event is only logged; other events are ignored. -/
def handleEvent (handler : KMessage → Except String Unit) :
    Option KEvent → List KMessage × List String
  | some (KEvent.message m) =>
      ([m],
       match handler m with
       | Except.ok _ => []
       | Except.error e => ["Error processing message: " ++ e])
  | some (KEvent.brokerError e) => ([], ["Consumer error: " ++ e])
  | some KEvent.otherEvent => ([], [])
  | none => ([], [])

/-- pollLoop embeds the for-select loop of ConsumeMessages over a finite
schedule of Poll results: each iteration first checks cancellation and
returns ctx.Err if cancelled, otherwise polls once and processes the
event; no event and no error ever leaves the loop. -/
def pollLoop (handler : KMessage → Except String Unit) (cancelAt : CancelAt)
    (i : Nat) : List (Option KEvent) → LoopOut
  | [] =>
      if ctxCancelled cancelAt i then ⟨LoopExit.cancelled, [], [], 0⟩
      else ⟨LoopExit.running, [], [], 0⟩
  | ev :: rest =>
      if ctxCancelled cancelAt i then ⟨LoopExit.cancelled, [], [], 0⟩
      else
        let step := handleEvent handler ev
        let out := pollLoop handler cancelAt (i + 1) rest
        ⟨out.exit, step.1 ++ out.handled, step.2 ++ out.logs, out.polls + 1⟩

/-- messagesBefore lists the messages the schedule delivers at iterations
that run before the cancellation check fires; it does not depend on the
handler. -/
def messagesBefore (cancelAt : CancelAt) (i : Nat) : List (Option KEvent) → List KMessage
  | [] => []
  | ev :: rest =>
      if ctxCancelled cancelAt i then []
      else
        (match ev with
         | some (KEvent.message m) => [m]
         | _ => []) ++ messagesBefore cancelAt (i + 1) rest

/-- ConsumeEnv fixes one ConsumeMessages run: whether the package
consumer handle is set and whether the manual Assign call fails. -/
structure ConsumeEnv where
  consumerInit : Bool
  assignErr : Option String
deriving DecidableEq, Repr

/-- ConsumeRes is what ConsumeMessages hands back: a returned error
chain, or still polling when the observed schedule ends first. -/
inductive ConsumeRes where
  | returned (err : List String)
  | stillPolling
deriving DecidableEq, Repr

/-- ConsumeOut is the observable outcome of ConsumeMessages. -/
structure ConsumeOut where
  res : ConsumeRes
  assigned : Option (String × Int)
  unassignCalled : Bool
  handled : List KMessage
  logs : List String
  polls : Nat
deriving DecidableEq, Repr

/-- deliveredEvents embeds the client-library contract of manual
assignment: Poll only returns messages from partitions in the current
assignment; a broker message outside the assignment surfaces as a nil
poll result. Broker error events are delivered as is. -/
def deliveredEvents (assigned : List (String × Int)) :
    List (Option KEvent) → List (Option KEvent) :=
  List.map fun ev =>
    match ev with
    | some (KEvent.message m) =>
        if (m.topic, m.partition) ∈ assigned then some (KEvent.message m) else none
    | x => x

/-- ConsumeMessages embeds kafka.ConsumeMessages: after the nil-consumer
check it assigns the consumer to partition 0 of the topic at OffsetEnd
(returning a wrapped error with no loop entered when Assign fails), runs
the polling loop over the events the broker delivers for that
assignment, and on a cancellation return the deferred Unassign runs. -/
def ConsumeMessages (env : ConsumeEnv) (cancelAt : CancelAt) (topic : String)
    (handler : KMessage → Except String Unit)
    (broker : List (Option KEvent)) : ConsumeOut :=
  if env.consumerInit = false then
    ⟨ConsumeRes.returned ["Kafka consumer not initialized"], none, false, [], [], 0⟩
  else
    match env.assignErr with
    | some c =>
        ⟨ConsumeRes.returned ["failed to assign consumer to topic " ++ topic, c],
         none, false, [], [], 0⟩
    | none =>
        let lo := pollLoop handler cancelAt 0 (deliveredEvents [(topic, 0)] broker)
        ⟨(match lo.exit with
          | LoopExit.cancelled => ConsumeRes.returned ["context canceled"]
          | LoopExit.running => ConsumeRes.stillPolling),
         some (topic, 0),
         (match lo.exit with
          | LoopExit.cancelled => true
          | LoopExit.running => false),
         lo.handled, lo.logs, lo.polls⟩

/-- brokerErrorsBefore lists the broker error events delivered at
iterations that run before the cancellation check fires. -/
def brokerErrorsBefore (cancelAt : CancelAt) (i : Nat) : List (Option KEvent) → List String
  | [] => []
  | ev :: rest =>
      if ctxCancelled cancelAt i then []
      else
        (match ev with
         | some (KEvent.brokerError e) => [e]
         | _ => []) ++ brokerErrorsBefore cancelAt (i + 1) rest

/-- pollsSpec counts how many Poll calls the loop makes before the
cancellation check stops it, over a schedule of the given length. -/
def pollsSpec (cancelAt : CancelAt) (i : Nat) (len : Nat) : Nat :=
  match cancelAt with
  | none => len
  | some n => min (n - i) len

theorem ctxCancelled_mono {cancelAt : CancelAt} {i j : Nat} (hij : i ≤ j)
    (h : ctxCancelled cancelAt i = true) : ctxCancelled cancelAt j = true := by
  cases cancelAt with
  | none => simp [ctxCancelled] at h
  | some n =>
      simp [ctxCancelled] at h ⊢
      omega

theorem handleEvent_fst (handler : KMessage → Except String Unit) (ev : Option KEvent) :
    (handleEvent handler ev).1 =
      (match ev with
       | some (KEvent.message m) => [m]
       | _ => []) := by
  cases ev with
  | none => rfl
  | some kev => cases kev <;> rfl

theorem pollLoop_handled (handler : KMessage → Except String Unit) (cancelAt : CancelAt)
    (sched : List (Option KEvent)) : ∀ i : Nat,
    (pollLoop handler cancelAt i sched).handled = messagesBefore cancelAt i sched := by
  induction sched with
  | nil =>
      intro i
      cases hc : ctxCancelled cancelAt i <;> simp [pollLoop, messagesBefore, hc]
  | cons ev rest ih =>
      intro i
      cases hc : ctxCancelled cancelAt i <;>
        simp [pollLoop, messagesBefore, hc, ih (i + 1), handleEvent_fst]

theorem pollLoop_exit (handler : KMessage → Except String Unit) (cancelAt : CancelAt)
    (sched : List (Option KEvent)) : ∀ i : Nat,
    (pollLoop handler cancelAt i sched).exit =
      (if ctxCancelled cancelAt (i + sched.length) then LoopExit.cancelled
       else LoopExit.running) := by
  induction sched with
  | nil =>
      intro i
      cases hc : ctxCancelled cancelAt i <;> simp [pollLoop, hc]
  | cons ev rest ih =>
      intro i
      cases hc : ctxCancelled cancelAt i
      · have harith : i + 1 + rest.length = i + (rest.length + 1) := by omega
        simpa [pollLoop, hc, harith] using ih (i + 1)
      · have hmono : ctxCancelled cancelAt (i + (rest.length + 1)) = true :=
          ctxCancelled_mono (by omega) hc
        simp [pollLoop, hc, hmono]

theorem pollLoop_polls (handler : KMessage → Except String Unit) (cancelAt : CancelAt)
    (sched : List (Option KEvent)) : ∀ i : Nat,
    (pollLoop handler cancelAt i sched).polls = pollsSpec cancelAt i sched.length := by
  induction sched with
  | nil =>
      intro i
      cases cancelAt with
      | none => simp [pollLoop, pollsSpec, ctxCancelled]
      | some n =>
          cases hc : ctxCancelled (some n) i <;> simp [pollLoop, pollsSpec, hc]
  | cons ev rest ih =>
      intro i
      cases cancelAt with
      | none => simp [pollLoop, pollsSpec, ctxCancelled, ih (i + 1)]
      | some n =>
          cases hc : ctxCancelled (some n) i
          · have hlt : ¬ n ≤ i := by simpa [ctxCancelled] using hc
            have := ih (i + 1)
            simp [pollLoop, hc, this, pollsSpec]
            omega
          · have hle : n ≤ i := by simpa [ctxCancelled] using hc
            simp [pollLoop, hc, pollsSpec]
            omega

theorem pollLoop_logs_mem (handler : KMessage → Except String Unit) (cancelAt : CancelAt)
    (sched : List (Option KEvent)) : ∀ (i : Nat) (m : KMessage) (e : String),
    m ∈ messagesBefore cancelAt i sched → handler m = Except.error e →
    ("Error processing message: " ++ e) ∈ (pollLoop handler cancelAt i sched).logs := by
  induction sched with
  | nil =>
      intro i m e hm _
      simp [messagesBefore] at hm
  | cons ev rest ih =>
      intro i m e hm he
      cases hc : ctxCancelled cancelAt i
      · cases ev with
        | none =>
            simp [messagesBefore, hc] at hm
            have hrec := ih (i + 1) m e hm he
            simp [pollLoop, hc, handleEvent, hrec]
        | some kev =>
            cases kev with
            | message m0 =>
                simp [messagesBefore, hc] at hm
                rcases hm with hm | hm
                · subst hm
                  simp [pollLoop, hc, handleEvent, he]
                · have hrec := ih (i + 1) m e hm he
                  simp [pollLoop, hc, handleEvent, hrec]
            | brokerError e0 =>
                simp [messagesBefore, hc] at hm
                have hrec := ih (i + 1) m e hm he
                simp [pollLoop, hc, handleEvent, hrec]
            | otherEvent =>
                simp [messagesBefore, hc] at hm
                have hrec := ih (i + 1) m e hm he
                simp [pollLoop, hc, handleEvent, hrec]
      · simp [messagesBefore, hc] at hm

theorem pollLoop_broker_logs_mem (handler : KMessage → Except String Unit)
    (cancelAt : CancelAt) (sched : List (Option KEvent)) : ∀ (i : Nat) (e : String),
    e ∈ brokerErrorsBefore cancelAt i sched →
    ("Consumer error: " ++ e) ∈ (pollLoop handler cancelAt i sched).logs := by
  induction sched with
  | nil =>
      intro i e he
      simp [brokerErrorsBefore] at he
  | cons ev rest ih =>
      intro i e he
      cases hc : ctxCancelled cancelAt i
      · cases ev with
        | none =>
            simp [brokerErrorsBefore, hc] at he
            have hrec := ih (i + 1) e he
            simp [pollLoop, hc, handleEvent, hrec]
        | some kev =>
            cases kev with
            | message m0 =>
                simp [brokerErrorsBefore, hc] at he
                have hrec := ih (i + 1) e he
                simp [pollLoop, hc, handleEvent, hrec]
            | brokerError e0 =>
                simp [brokerErrorsBefore, hc] at he
                rcases he with he | he
                · subst he
                  simp [pollLoop, hc, handleEvent]
                · have hrec := ih (i + 1) e he
                  simp [pollLoop, hc, handleEvent, hrec]
            | otherEvent =>
                simp [brokerErrorsBefore, hc] at he
                have hrec := ih (i + 1) e he
                simp [pollLoop, hc, handleEvent, hrec]
      · simp [brokerErrorsBefore, hc] at he

theorem messagesBefore_delivered (assigned : List (String × Int)) (cancelAt : CancelAt)
    (broker : List (Option KEvent)) : ∀ (i : Nat) (m : KMessage),
    m ∈ messagesBefore cancelAt i (deliveredEvents assigned broker) →
    (m.topic, m.partition) ∈ assigned := by
  induction broker with
  | nil =>
      intro i m hm
      simp [deliveredEvents, messagesBefore] at hm
  | cons ev rest ih =>
      intro i m hm
      cases hc : ctxCancelled cancelAt i
      · cases ev with
        | none =>
            simp only [deliveredEvents, List.map_cons] at hm
            simp [messagesBefore, hc] at hm
            exact ih (i + 1) m (by simpa [deliveredEvents] using hm)
        | some kev =>
            cases kev with
            | message m0 =>
                by_cases hin : (m0.topic, m0.partition) ∈ assigned
                · simp only [deliveredEvents, List.map_cons, if_pos hin] at hm
                  simp [messagesBefore, hc] at hm
                  rcases hm with hm | hm
                  · subst hm
                    exact hin
                  · exact ih (i + 1) m (by simpa [deliveredEvents] using hm)
                · simp only [deliveredEvents, List.map_cons, if_neg hin] at hm
                  simp [messagesBefore, hc] at hm
                  exact ih (i + 1) m (by simpa [deliveredEvents] using hm)
            | brokerError e0 =>
                simp only [deliveredEvents, List.map_cons] at hm
                simp [messagesBefore, hc] at hm
                exact ih (i + 1) m (by simpa [deliveredEvents] using hm)
            | otherEvent =>
                simp only [deliveredEvents, List.map_cons] at hm
                simp [messagesBefore, hc] at hm
                exact ih (i + 1) m (by simpa [deliveredEvents] using hm)
      · cases ev with
        | none =>
            simp only [deliveredEvents, List.map_cons] at hm
            simp [messagesBefore, hc] at hm
        | some kev =>
            cases kev with
            | message m0 =>
                by_cases hin : (m0.topic, m0.partition) ∈ assigned
                · simp only [deliveredEvents, List.map_cons, if_pos hin] at hm
                  simp [messagesBefore, hc] at hm
                · simp only [deliveredEvents, List.map_cons, if_neg hin] at hm
                  simp [messagesBefore, hc] at hm
            | brokerError e0 =>
                simp only [deliveredEvents, List.map_cons] at hm
                simp [messagesBefore, hc] at hm
            | otherEvent =>
                simp only [deliveredEvents, List.map_cons] at hm
                simp [messagesBefore, hc] at hm

theorem deliveredEvents_length (assigned : List (String × Int))
    (broker : List (Option KEvent)) :
    (deliveredEvents assigned broker).length = broker.length :=
  List.length_map _ _

theorem SetConfig_done {s : GlobalState} (hs : s.onceDone = true)
    (cfg : Option GConfigVal) : SetConfig cfg s = s := by
  simp [SetConfig, hs]

theorem runSetConfigs_done (calls : List (Option GConfigVal)) :
    ∀ s : GlobalState, s.onceDone = true → runSetConfigs calls s = s := by
  induction calls with
  | nil => intro s _; rfl
  | cons d ds ih =>
      intro s hs
      show runSetConfigs ds (SetConfig d s) = s
      rw [SetConfig_done hs]
      exact ih s hs

/-- envAllOk is an environment where every Init and Close succeeds. -/
def envAllOk : Env := ⟨fun _ => none, fun _ => none⟩

/-- cfgAllOn enables every subsystem. -/
def cfgAllOn : Cfg := ⟨true, true, true, true, true⟩

/-- handlesAll marks every package client handle as set. -/
def handlesAll : Handles := fun _ => true

/-- envRedisFail is an environment where only the Redis Init fails. -/
def envRedisFail : Env :=
  ⟨fun s => if s = Subsystem.redis then some "boom" else none, fun _ => none⟩

/-- envMysqlCloseFail is an environment where only the MySQL Close fails. -/
def envMysqlCloseFail : Env :=
  ⟨fun _ => none, fun s => if s = Subsystem.mysql then some "disk gone" else none⟩

/-- C1 amended: Shutdown invokes Close on every one of the five
subsystems in the fixed forward declaration order, which is the same
order Start initializes them in, not its reverse, and it does so for
every environment and handle state, not only for started subsystems. -/
theorem shutdown_close_forward_order (env : Env) (h : Handles) :
    closeCalls (Shutdown env h).1.trace =
      [Subsystem.mysql, Subsystem.postgres, Subsystem.redis,
       Subsystem.elasticsearch, Subsystem.kafka] := rfl

/-- C1 counterexample: with every subsystem enabled and every Init
succeeding, Start records the five subsystems as started in declaration
order, yet Shutdown closes them in that same forward order, which is not
the reverse order of successful initialization required by the claim. -/
theorem shutdown_not_reverse_order :
    (Start envAllOk cfgAllOn).started =
      [Subsystem.mysql, Subsystem.postgres, Subsystem.redis,
       Subsystem.elasticsearch, Subsystem.kafka] ∧
    closeCalls (Shutdown envAllOk handlesAll).1.trace ≠
      ((Start envAllOk cfgAllOn).started).reverse := by
  decide

/-- C2 amended: a failing Close never stops Shutdown, all five Close
calls are always attempted and each failure is logged, but Shutdown
always returns a nil error, even when some Close failed; no aggregated
error is built. -/
theorem shutdown_best_effort_returns_nil (env : Env) (h : Handles) :
    (Shutdown env h).1.res = GoResult.ok ∧
    closeCalls (Shutdown env h).1.trace =
      [Subsystem.mysql, Subsystem.postgres, Subsystem.redis,
       Subsystem.elasticsearch, Subsystem.kafka] ∧
    (∀ s : Subsystem, (env.closeErr s).isSome = true →
      closeFailLog s ∈ (Shutdown env h).1.logs) := by
  refine ⟨rfl, rfl, ?_⟩
  intro s hs
  rcases hse : env.closeErr s with _ | c
  · rw [hse] at hs
    simp at hs
  · cases s <;> simp [Shutdown, closeStep, hse]

/-- C2 amended witness: in an environment where the MySQL Close fails,
Shutdown still returns a nil error and the failure shows up only in the
logs. -/
theorem shutdown_best_effort_returns_nil_witness :
    ((envMysqlCloseFail.closeErr Subsystem.mysql).isSome = true) ∧
    ((Shutdown envMysqlCloseFail handlesAll).1.res = GoResult.ok ∧
     closeFailLog Subsystem.mysql ∈ (Shutdown envMysqlCloseFail handlesAll).1.logs) :=
  ⟨by decide,
   (shutdown_best_effort_returns_nil envMysqlCloseFail handlesAll).1,
   (shutdown_best_effort_returns_nil envMysqlCloseFail handlesAll).2.2
     Subsystem.mysql (by decide)⟩

/-- C2 counterexample: in an environment where the MySQL Close fails,
Shutdown logs the failure yet returns a nil error, contradicting the
claim that it returns an aggregated error mentioning the failing
subsystem and returns nil only when all closes succeeded. -/
theorem shutdown_nil_despite_close_failure :
    envMysqlCloseFail.closeErr Subsystem.mysql = some "disk gone" ∧
    closeFailLog Subsystem.mysql ∈ (Shutdown envMysqlCloseFail handlesAll).1.logs ∧
    (Shutdown envMysqlCloseFail handlesAll).1.res = GoResult.ok := by
  decide

/-- C3 amended: Shutdown keeps no orchestrator state at all, so a second
call behaves exactly like the first: it re-invokes Close on all five
subsystems and again returns a nil error; the function is idempotent only
in its return value, not in performing no work. -/
theorem shutdown_second_call_same (env : Env) (h : Handles) :
    (Shutdown env (Shutdown env h).2).1 = (Shutdown env h).1 ∧
    closeCalls (Shutdown env (Shutdown env h).2).1.trace =
      [Subsystem.mysql, Subsystem.postgres, Subsystem.redis,
       Subsystem.elasticsearch, Subsystem.kafka] ∧
    (Shutdown env (Shutdown env h).2).1.res = GoResult.ok :=
  ⟨rfl, rfl, rfl⟩

/-- C3 counterexample: after a completed first Shutdown, a second call
still performs five Close invocations, contradicting the claim that the
second call performs no Close invocation on any subsystem. -/
theorem shutdown_second_call_closes_again :
    closeCalls (Shutdown envAllOk (Shutdown envAllOk handlesAll).2).1.trace =
      [Subsystem.mysql, Subsystem.postgres, Subsystem.redis,
       Subsystem.elasticsearch, Subsystem.kafka] ∧
    closeCalls (Shutdown envAllOk (Shutdown envAllOk handlesAll).2).1.trace ≠ [] := by
  decide

/-- C4: if subsystem s is enabled, its Init fails with cause c, and every
enabled subsystem declared before s initializes successfully, then Start
returns the wrapped error chain naming s and ending in c, the enabled
predecessors of s remain recorded as started, no subsystem after s is
ever initialized (the Init trace is exactly the started prefix plus s),
and Start performs no Close call at all. -/
theorem start_fail_fast (env : Env) (cfg : Cfg) (s : Subsystem) (c : String)
    (hen : cfg.enabledOf s = true)
    (herr : env.initErr s = some c)
    (hbefore : ∀ t ∈ predecessors s, cfg.enabledOf t = true → env.initErr t = none) :
    (Start env cfg).res = GoResult.fail (startFailChain s c) ∧
    (Start env cfg).started = (predecessors s).filter cfg.enabledOf ∧
    initCalls (Start env cfg).trace = (predecessors s).filter cfg.enabledOf ++ [s] ∧
    closeCalls (Start env cfg).trace = [] := by
  obtain ⟨em, ep, er, ee, ek⟩ := cfg
  cases s with
  | mysql =>
      simp [Cfg.enabledOf] at hen
      simp_all [Start, initDatabases, initCache, initElasticsearch, initKafka,
        initStep, StartOut.andThen, StartOut.wrap, Cfg.enabledOf, predecessors,
        startFailChain, initFailMsg, initCalls, closeCalls]
  | postgres =>
      simp [Cfg.enabledOf] at hen
      simp [predecessors, Cfg.enabledOf] at hbefore
      cases em <;>
        simp_all [Start, initDatabases, initCache, initElasticsearch, initKafka,
          initStep, StartOut.andThen, StartOut.wrap, Cfg.enabledOf, predecessors,
          startFailChain, initFailMsg, initCalls, closeCalls]
  | redis =>
      simp [Cfg.enabledOf] at hen
      simp [predecessors, Cfg.enabledOf] at hbefore
      cases em <;> cases ep <;>
        simp_all [Start, initDatabases, initCache, initElasticsearch, initKafka,
          initStep, StartOut.andThen, StartOut.wrap, Cfg.enabledOf, predecessors,
          startFailChain, initFailMsg, initCalls, closeCalls]
  | elasticsearch =>
      simp [Cfg.enabledOf] at hen
      simp [predecessors, Cfg.enabledOf] at hbefore
      cases em <;> cases ep <;> cases er <;>
        simp_all [Start, initDatabases, initCache, initElasticsearch, initKafka,
          initStep, StartOut.andThen, StartOut.wrap, Cfg.enabledOf, predecessors,
          startFailChain, initFailMsg, initCalls, closeCalls]
  | kafka =>
      simp [Cfg.enabledOf] at hen
      simp [predecessors, Cfg.enabledOf] at hbefore
      cases em <;> cases ep <;> cases er <;> cases ee <;>
        simp_all [Start, initDatabases, initCache, initElasticsearch, initKafka,
          initStep, StartOut.andThen, StartOut.wrap, Cfg.enabledOf, predecessors,
          startFailChain, initFailMsg, initCalls, closeCalls]

/-- C4 witness: with every subsystem enabled and only the Redis Init
failing, Start stops at Redis, keeps MySQL and PostgreSQL started,
returns the wrapped cache error ending in the cause, and closes nothing. -/
theorem start_fail_fast_witness :
    (cfgAllOn.enabledOf Subsystem.redis = true ∧
     envRedisFail.initErr Subsystem.redis = some "boom") ∧
    ((Start envRedisFail cfgAllOn).res =
        GoResult.fail (startFailChain Subsystem.redis "boom") ∧
     (Start envRedisFail cfgAllOn).started =
        (predecessors Subsystem.redis).filter cfgAllOn.enabledOf ∧
     initCalls (Start envRedisFail cfgAllOn).trace =
        (predecessors Subsystem.redis).filter cfgAllOn.enabledOf ++ [Subsystem.redis] ∧
     closeCalls (Start envRedisFail cfgAllOn).trace = []) :=
  ⟨by decide,
   start_fail_fast envRedisFail cfgAllOn Subsystem.redis "boom"
     (by decide) (by decide) (by decide)⟩

/-- C9: the global configuration is set-once. Folding any sequence of
SetConfig calls from the initial package state stores exactly the first
argument: the state after the whole sequence equals the state after the
first call alone, GetConfig returns the first argument, and GetConfig on
the untouched initial state returns the nil pointer. -/
theorem setconfig_first_wins (c : Option GConfigVal) (cs : List (Option GConfigVal)) :
    runSetConfigs (c :: cs) initialGlobalState = SetConfig c initialGlobalState ∧
    GetConfig (runSetConfigs (c :: cs) initialGlobalState) = c ∧
    GetConfig (runSetConfigs [] initialGlobalState) = none := by
  have h1 : SetConfig c initialGlobalState = ⟨true, c⟩ := rfl
  have h2 : runSetConfigs (c :: cs) initialGlobalState = SetConfig c initialGlobalState := by
    show runSetConfigs cs (SetConfig c initialGlobalState) = SetConfig c initialGlobalState
    rw [h1]
    exact runSetConfigs_done cs ⟨true, c⟩ rfl
  refine ⟨h2, ?_, rfl⟩
  rw [h2, h1]
  rfl

/-- prodEnvOk is a producer environment where the producer handle is set,
Produce succeeds, and the broker confirms delivery at partition 3,
offset 5. -/
def prodEnvOk : ProducerEnv := ⟨true, none, ⟨3, 5, none⟩⟩

/-- C5 amended: with a context already cancelled before the call, the
code still submits the envelope (producer.Produce is invoked before the
wait), and PublishMessage then returns the context cancellation error
when the cancellation branch of the wait fires before the delivery
event. -/
theorem publish_cancel_after_submit (env : ProducerEnv) (ctx : PubCtx)
    (topic key : String) (value : List Nat)
    (hp : env.producerInit = true) (hq : env.produceErr = none)
    (hc : ctx.cancelledBeforeDelivery = true) :
    (PublishMessage env ctx topic key value).res = GoResult.fail ["context canceled"] ∧
    (PublishMessage env ctx topic key value).produceCalled = true := by
  simp [PublishMessage, hp, hq, hc]

/-- C5 amended witness: a concrete pre-cancelled call returns the
cancellation error with the envelope already submitted. -/
theorem publish_cancel_after_submit_witness :
    (prodEnvOk.producerInit = true ∧ prodEnvOk.produceErr = none ∧
     (PubCtx.mk true).cancelledBeforeDelivery = true) ∧
    ((PublishMessage prodEnvOk ⟨true⟩ "orders" "o-1" [1]).res =
        GoResult.fail ["context canceled"] ∧
     (PublishMessage prodEnvOk ⟨true⟩ "orders" "o-1" [1]).produceCalled = true) :=
  ⟨by decide,
   publish_cancel_after_submit prodEnvOk ⟨true⟩ "orders" "o-1" [1]
     (by decide) (by decide) (by decide)⟩

/-- C5 counterexample: with the context already cancelled, the underlying
produce is invoked all the same, contradicting the claim that the
envelope is never submitted to the send queue. -/
theorem publish_cancelled_still_submits :
    (PubCtx.mk true).cancelledBeforeDelivery = true ∧
    (PublishMessage prodEnvOk ⟨true⟩ "orders" "o-1" [1]).produceCalled = true := by
  decide

/-- C6 amended: when the delivery event reports a partition and offset
with no delivery error, PublishMessage succeeds, returning a nil error to
the caller, and echoes the reported partition and offset only into the
log line; the function returns no DeliveryResult value. -/
theorem publish_success_echoes_only_in_log (env : ProducerEnv) (ctx : PubCtx)
    (topic key : String) (value : List Nat)
    (hp : env.producerInit = true) (hq : env.produceErr = none)
    (hc : ctx.cancelledBeforeDelivery = false)
    (hd : env.delivery.deliveryErr = none) :
    (PublishMessage env ctx topic key value).res = GoResult.ok ∧
    (PublishMessage env ctx topic key value).logs =
      [sentLog topic env.delivery.partition env.delivery.offset] ∧
    (PublishMessage env ctx topic key value).produceCalled = true := by
  simp [PublishMessage, hp, hq, hc, hd]

/-- C6 amended witness: a concrete confirmed delivery at partition 3,
offset 5 returns a nil error and logs that partition and offset. -/
theorem publish_success_echoes_only_in_log_witness :
    (prodEnvOk.producerInit = true ∧ prodEnvOk.produceErr = none ∧
     (PubCtx.mk false).cancelledBeforeDelivery = false ∧
     prodEnvOk.delivery.deliveryErr = none) ∧
    ((PublishMessage prodEnvOk ⟨false⟩ "orders" "o-1" [1]).res = GoResult.ok ∧
     (PublishMessage prodEnvOk ⟨false⟩ "orders" "o-1" [1]).logs =
       [sentLog "orders" prodEnvOk.delivery.partition prodEnvOk.delivery.offset] ∧
     (PublishMessage prodEnvOk ⟨false⟩ "orders" "o-1" [1]).produceCalled = true) :=
  ⟨⟨by decide, by decide, by decide, by decide⟩,
   publish_success_echoes_only_in_log prodEnvOk ⟨false⟩ "orders" "o-1" [1]
     (by decide) (by decide) (by decide) (by decide)⟩

/-- C6 counterexample: two successful runs whose delivery events report
different partitions and offsets hand the caller the same return value,
so the value returned to the caller cannot echo the reported partition
and offset; the Go function returns only an error, not a DeliveryResult. -/
theorem publish_returns_no_delivery_result :
    (PublishMessage ⟨true, none, ⟨0, 5, none⟩⟩ ⟨false⟩ "orders" "k" []).res =
      (PublishMessage ⟨true, none, ⟨1, 7, none⟩⟩ ⟨false⟩ "orders" "k" []).res ∧
    (DeliveryEvent.mk 0 5 none).partition ≠ (DeliveryEvent.mk 1 7 none).partition ∧
    (DeliveryEvent.mk 0 5 none).offset ≠ (DeliveryEvent.mk 1 7 none).offset := by
  decide

/-- cEnvOk is a consumer environment where the consumer handle is set and
the manual partition assignment succeeds. -/
def cEnvOk : ConsumeEnv := ⟨true, none⟩

/-- cEnvAssignFail is a consumer environment where Assign fails. -/
def cEnvAssignFail : ConsumeEnv := ⟨true, some "nope"⟩

/-- msgA is a message on partition 0 of topic orders. -/
def msgA : KMessage := ⟨"orders", 0, 10, "o-1", [1]⟩

/-- msgB is a second message on partition 0 of topic orders. -/
def msgB : KMessage := ⟨"orders", 0, 11, "o-2", [2]⟩

/-- msgOther is a message on partition 2 of topic orders. -/
def msgOther : KMessage := ⟨"orders", 2, 12, "o-3", [3]⟩

/-- hAlwaysErr is a handler that fails on every message. -/
def hAlwaysErr : KMessage → Except String Unit := fun _ => Except.error "bad"

/-- brokerTwo is a broker stream with two consecutive messages on
partition 0 of topic orders. -/
def brokerTwo : List (Option KEvent) :=
  [some (KEvent.message msgA), some (KEvent.message msgB)]

/-- brokerMix is a broker stream with a partition 0 message, a message on
partition 2, and a broker error event. -/
def brokerMix : List (Option KEvent) :=
  [some (KEvent.message msgA), some (KEvent.message msgOther),
   some (KEvent.brokerError "b")]

/-- brokerSeq is a broker stream with a partition 0 message, then a
broker error event, then a second partition 0 message. -/
def brokerSeq : List (Option KEvent) :=
  [some (KEvent.message msgA), some (KEvent.brokerError "b"),
   some (KEvent.message msgB)]

/-- C7: in the Consume polling loop, handler errors and broker error
events never terminate the loop. The dispatched messages are exactly the
messages the broker delivers before cancellation, a description that does
not mention the handler at all, so an error on message M cannot prevent
message M+1 from being received and dispatched; the result is either
still polling or the context cancellation error, never an error-driven
exit; every handler error and every broker error event polled before
cancellation is logged. -/
theorem consume_handler_errors_never_stop_loop (env : ConsumeEnv)
    (cancelAt : CancelAt) (topic : String)
    (handler : KMessage → Except String Unit) (broker : List (Option KEvent))
    (hi : env.consumerInit = true) (ha : env.assignErr = none) :
    (ConsumeMessages env cancelAt topic handler broker).handled =
      messagesBefore cancelAt 0 (deliveredEvents [(topic, 0)] broker) ∧
    ((ConsumeMessages env cancelAt topic handler broker).res = ConsumeRes.stillPolling ∨
     (ConsumeMessages env cancelAt topic handler broker).res =
       ConsumeRes.returned ["context canceled"]) ∧
    (∀ m e, m ∈ (ConsumeMessages env cancelAt topic handler broker).handled →
      handler m = Except.error e →
      ("Error processing message: " ++ e) ∈
        (ConsumeMessages env cancelAt topic handler broker).logs) ∧
    (∀ e, e ∈ brokerErrorsBefore cancelAt 0 (deliveredEvents [(topic, 0)] broker) →
      ("Consumer error: " ++ e) ∈
        (ConsumeMessages env cancelAt topic handler broker).logs) := by
  have hh := pollLoop_handled handler cancelAt (deliveredEvents [(topic, 0)] broker) 0
  refine ⟨?_, ?_, ?_, ?_⟩
  · simpa [ConsumeMessages, hi, ha] using hh
  · rcases hex : (pollLoop handler cancelAt 0 (deliveredEvents [(topic, 0)] broker)).exit with _ | _
    · right
      simp [ConsumeMessages, hi, ha, hex]
    · left
      simp [ConsumeMessages, hi, ha, hex]
  · intro m e hm he
    have hm2 : m ∈ messagesBefore cancelAt 0 (deliveredEvents [(topic, 0)] broker) := by
      rw [← hh]
      simpa [ConsumeMessages, hi, ha] using hm
    have := pollLoop_logs_mem handler cancelAt (deliveredEvents [(topic, 0)] broker) 0 m e hm2 he
    simpa [ConsumeMessages, hi, ha] using this
  · intro e he
    have := pollLoop_broker_logs_mem handler cancelAt (deliveredEvents [(topic, 0)] broker) 0 e he
    simpa [ConsumeMessages, hi, ha] using this

/-- C7 witness: with a handler that fails on every message, both
scheduled messages are still dispatched in order, the loop is still
polling afterward, and the handler error and the broker error are in the
logs. -/
theorem consume_handler_errors_never_stop_loop_witness :
    (cEnvOk.consumerInit = true ∧ cEnvOk.assignErr = none ∧
     hAlwaysErr msgA = Except.error "bad") ∧
    ((ConsumeMessages cEnvOk none "orders" hAlwaysErr brokerSeq).handled =
       [msgA, msgB] ∧
     (ConsumeMessages cEnvOk none "orders" hAlwaysErr brokerSeq).res =
       ConsumeRes.stillPolling ∧
     ("Error processing message: " ++ "bad") ∈
       (ConsumeMessages cEnvOk none "orders" hAlwaysErr brokerSeq).logs ∧
     ("Consumer error: " ++ "b") ∈
       (ConsumeMessages cEnvOk none "orders" hAlwaysErr brokerSeq).logs) := by
  have h := consume_handler_errors_never_stop_loop cEnvOk none "orders" hAlwaysErr
    brokerSeq (by decide) (by decide)
  refine ⟨⟨by decide, by decide, rfl⟩, ?_, ?_, ?_, ?_⟩
  · rw [h.1]
    decide
  · rcases h.2.1 with hres | hres
    · exact hres
    · exact absurd hres (by decide)
  · exact h.2.2.1 msgA "bad" (by decide) rfl
  · exact h.2.2.2 "b" (by decide)

/-- C8: if the manual partition assignment fails, ConsumeMessages
returns the wrapped assignment error without entering the loop (zero
polls, nothing handled, no Unassign); if assignment succeeds and the
context is cancelled from poll tick n onward with n within the observed
schedule, the loop stops at that tick, having made exactly n polls, the
deferred Unassign runs, and the context cancellation error is returned. -/
theorem consume_assign_fail_and_cancel (env : ConsumeEnv) (cancelAt : CancelAt)
    (topic : String) (handler : KMessage → Except String Unit)
    (broker : List (Option KEvent)) (c : String) (n : Nat)
    (hi : env.consumerInit = true) :
    (env.assignErr = some c →
      ConsumeMessages env cancelAt topic handler broker =
        ⟨ConsumeRes.returned ["failed to assign consumer to topic " ++ topic, c],
         none, false, [], [], 0⟩) ∧
    (env.assignErr = none → cancelAt = some n → n ≤ broker.length →
      (ConsumeMessages env cancelAt topic handler broker).res =
        ConsumeRes.returned ["context canceled"] ∧
      (ConsumeMessages env cancelAt topic handler broker).unassignCalled = true ∧
      (ConsumeMessages env cancelAt topic handler broker).polls = n) := by
  constructor
  · intro ha
    simp [ConsumeMessages, hi, ha]
  · intro ha hcn hn
    subst hcn
    have hlen : (deliveredEvents [(topic, 0)] broker).length = broker.length :=
      deliveredEvents_length _ _
    have hexit := pollLoop_exit handler (some n) (deliveredEvents [(topic, 0)] broker) 0
    have hpolls := pollLoop_polls handler (some n) (deliveredEvents [(topic, 0)] broker) 0
    rw [hlen] at hexit hpolls
    have hctx : ctxCancelled (some n) (0 + broker.length) = true := by
      simp [ctxCancelled]
      omega
    rw [hctx] at hexit
    simp at hexit
    have hmin : pollsSpec (some n) 0 broker.length = n := by
      simp [pollsSpec]
      omega
    rw [hmin] at hpolls
    refine ⟨?_, ?_, ?_⟩
    · simp [ConsumeMessages, hi, ha, hexit]
    · simp [ConsumeMessages, hi, ha, hexit]
    · simp [ConsumeMessages, hi, ha, hpolls]

/-- C8 witness: a failing assignment returns the wrapped error with the
loop never entered, and a context cancelled at tick 0 right after a
successful assignment returns the cancellation error with zero polls and
the partition unassigned. -/
theorem consume_assign_fail_and_cancel_witness :
    (cEnvAssignFail.consumerInit = true ∧ cEnvAssignFail.assignErr = some "nope" ∧
     cEnvOk.assignErr = none ∧ 0 ≤ brokerTwo.length) ∧
    (ConsumeMessages cEnvAssignFail none "orders" hAlwaysErr brokerTwo =
      ⟨ConsumeRes.returned ["failed to assign consumer to topic " ++ "orders", "nope"],
       none, false, [], [], 0⟩) ∧
    ((ConsumeMessages cEnvOk (some 0) "orders" hAlwaysErr brokerTwo).res =
       ConsumeRes.returned ["context canceled"] ∧
     (ConsumeMessages cEnvOk (some 0) "orders" hAlwaysErr brokerTwo).unassignCalled = true ∧
     (ConsumeMessages cEnvOk (some 0) "orders" hAlwaysErr brokerTwo).polls = 0) := by
  refine ⟨⟨by decide, by decide, by decide, by decide⟩, ?_, ?_⟩
  · exact (consume_assign_fail_and_cancel cEnvAssignFail none "orders" hAlwaysErr
      brokerTwo "nope" 0 (by decide)).1 (by decide)
  · exact (consume_assign_fail_and_cancel cEnvOk (some 0) "orders" hAlwaysErr
      brokerTwo "x" 0 (by decide)).2 (by decide) (by decide) (by decide)

/-- C10: ConsumeMessages assigns the consumer to exactly partition 0 of
the requested topic whenever the consumer is initialized and Assign
succeeds (and makes no other assignment in any case), and every message
dispatched to the handler is on that topic and on partition 0; messages
the broker holds on any other partition are never passed to the handler. -/
theorem consume_assigns_partition_zero (env : ConsumeEnv) (cancelAt : CancelAt)
    (topic : String) (handler : KMessage → Except String Unit)
    (broker : List (Option KEvent)) :
    ((ConsumeMessages env cancelAt topic handler broker).assigned = none ∨
     (ConsumeMessages env cancelAt topic handler broker).assigned = some (topic, 0)) ∧
    (env.consumerInit = true → env.assignErr = none →
      (ConsumeMessages env cancelAt topic handler broker).assigned = some (topic, 0)) ∧
    (∀ m ∈ (ConsumeMessages env cancelAt topic handler broker).handled,
      m.topic = topic ∧ m.partition = 0) := by
  cases hi : env.consumerInit
  · refine ⟨Or.inl ?_, ?_, ?_⟩
    · simp [ConsumeMessages, hi]
    · intro h
      simp [hi] at h
    · intro m hm
      simp [ConsumeMessages, hi] at hm
  · cases ha : env.assignErr with
    | some c =>
        refine ⟨Or.inl ?_, ?_, ?_⟩
        · simp [ConsumeMessages, hi, ha]
        · intro _ h
          simp [ha] at h
        · intro m hm
          simp [ConsumeMessages, hi, ha] at hm
    | none =>
        refine ⟨Or.inr ?_, fun _ _ => ?_, ?_⟩
        · simp [ConsumeMessages, hi, ha]
        · simp [ConsumeMessages, hi, ha]
        · intro m hm
          have hm2 : m ∈ messagesBefore cancelAt 0 (deliveredEvents [(topic, 0)] broker) := by
            rw [← pollLoop_handled handler cancelAt (deliveredEvents [(topic, 0)] broker) 0]
            simpa [ConsumeMessages, hi, ha] using hm
          have hmem := messagesBefore_delivered [(topic, 0)] cancelAt broker 0 m hm2
          simp at hmem
          exact hmem

/-- C10 witness: with a broker stream holding messages on partition 0
and on partition 2 of topic orders, the consumer is assigned to
partition 0 exactly, only the partition 0 message reaches the handler
(the partition 2 message is excluded), and the theorem confirms its topic
and partition. -/
theorem consume_assigns_partition_zero_witness :
    (cEnvOk.consumerInit = true ∧ cEnvOk.assignErr = none ∧
     msgA ∈ (ConsumeMessages cEnvOk none "orders" hAlwaysErr brokerMix).handled ∧
     (ConsumeMessages cEnvOk none "orders" hAlwaysErr brokerMix).handled =
       [msgA]) ∧
    ((ConsumeMessages cEnvOk none "orders" hAlwaysErr brokerMix).assigned =
       some ("orders", 0) ∧
     (msgA.topic = "orders" ∧ msgA.partition = 0)) := by
  have h := consume_assigns_partition_zero cEnvOk none "orders" hAlwaysErr brokerMix
  exact ⟨⟨by decide, by decide, by decide, by decide⟩,
    h.2.1 (by decide) (by decide), h.2.2 msgA (by decide)⟩

end TinkerBox
